import Mathlib

/-!
Verification development for the Quarry research orchestrator repository.

The repository's source under scrutiny consists of the React frontend
(types, WebSocket hook, Typst hook, chat sidebar, report viewer) and the
Typst rendering components (citation and conflict-box). The backend
orchestrator (Dispatcher, Claim Store, Synthesizer, Document Projector)
is described by the specification but its code is not present; those
parts are modelled from the spec, with doc comments marking them.
-/

namespace Quarry

/-! ## Frontend: WebSocket message contract (src/frontend/src/types/index.ts) -/

/-- Embedding of the `BackendInfo.status` union type
`"searching" | "done" | "failed"` from src/frontend/src/types/index.ts. -/
inductive BackendStatus
  | searching
  | done
  | failed
deriving DecidableEq, Fintype, Repr

/-- The string literal each `BackendStatus` variant denotes in the
TypeScript union type. -/
def BackendStatus.toStr : BackendStatus → String
  | .searching => "searching"
  | .done => "done"
  | .failed => "failed"

/-- Embedding of `BackendInfo` from src/frontend/src/types/index.ts:
`\x7b name: string; status: "searching" | "done" | "failed" \x7d`. -/
structure BackendInfo where
  name : String
  status : BackendStatus
deriving DecidableEq, Repr

/-- Embedding of the `WSMessage` discriminated union from
src/frontend/src/types/index.ts (the variant with `backend_update`).
Each constructor corresponds to one member of the union; optional fields
become `Option`. -/
inductive WSMessage
  | status (stage : String) (backends : Option (List BackendInfo)) (detail : Option String)
  | backendUpdate (name : String) (statusDone : Bool) (claims : Option Nat) (errField : Option String)
  | report (typstSource : String)
  | errMsg (detail : String)
  | ack (data : String)
deriving DecidableEq, Repr

/-- The value of the `type` discriminant field of each `WSMessage`
variant, exactly as written in the TypeScript union. -/
def WSMessage.msgType : WSMessage → String
  | .status _ _ _ => "status"
  | .backendUpdate _ _ _ _ => "backend_update"
  | .report _ => "report"
  | .errMsg _ => "error"
  | .ack _ => "ack"

/-- The client-side state held by the `useWebSocket` hook
(src/unnamed/part_002): `stage`, `typstSource`, `error`. -/
structure WSState where
  stage : String
  typstSource : String
  errText : String
deriving DecidableEq, Repr

/-- Initial hook state: all three `useState` cells start at `""`. -/
def wsInit : WSState := ⟨"", "", ""⟩

/-- Embedding of the `ws.onmessage` switch in `useWebSocket`
(src/unnamed/part_002): `"status"` sets `stage`, `"report"` sets
`typstSource`, `"error"` sets `error`; other message types fall through
and change nothing. -/
def handleMessage (m : WSMessage) (st : WSState) : WSState :=
  match m with
  | .status stage _ _ => { st with stage := stage }
  | .report src => { st with typstSource := src }
  | .errMsg detail => { st with errText := detail }
  | .backendUpdate _ _ _ _ => st
  | .ack _ => st

/-! ## Frontend: backend status icons (ChatSidebar, src/unnamed/part_000) -/

/-- Embedding of `STATUS_ICON` from ChatSidebar (src/unnamed/part_000):
a record with keys `searching`, `done`, `failed`; lookup of any other
key yields `none` (JS `undefined`). -/
def STATUS_ICON (s : String) : Option String :=
  if s = "searching" then some "⏳"
  else if s = "done" then some "✅"
  else if s = "failed" then some "❌"
  else none

/-- The icon actually rendered for a backend row:
`STATUS_ICON[b.status] || "⏳"` from src/unnamed/part_000. -/
def statusIcon (s : String) : String :=
  (STATUS_ICON s).getD "⏳"

/-! ## Frontend: the useTypst hook (src/frontend/src/App.tsx, src/unnamed/part_002) -/

/-- The state held by the `useTypst` hook: the `svg`, `compiling` and
`error` `useState` cells plus the `lastSource` ref. -/
structure TypstState where
  svg : String
  compiling : Bool
  errText : String
  lastSource : String
deriving DecidableEq, Repr

/-- Initial `useTypst` state: empty strings and `compiling = false`. -/
def typstInit : TypstState := ⟨"", false, "", ""⟩

/-- Outcome of one `$typst.svg` call: it resolves with an SVG string or
throws; a thrown `Error` carries `some` message, any other thrown value
carries `none`. -/
inductive CompileOutcome
  | okSvg (svg : String)
  | thrown (msg : Option String)
deriving DecidableEq, Repr

/-- Embedding of `useTypst.compile` (src/frontend/src/App.tsx lines
69-85 and src/unnamed/part_002): the guard
`if (!source || source === lastSource.current) return;` returns without
touching any state; otherwise `lastSource` is set, `compiling := true`,
`error := ""`, then on success `svg` is set, on throw `error` is set to
the message (or the fallback text) while `svg` is left alone, and
`finally` resets `compiling := false`. The returned `Bool` records
whether the compiler was invoked. -/
def compile (source : String) (outcome : CompileOutcome) (st : TypstState) :
    TypstState × Bool :=
  if source = "" ∨ source = st.lastSource then (st, false)
  else
    let st1 : TypstState :=
      { st with lastSource := source, compiling := true, errText := "" }
    match outcome with
    | .okSvg s => ({ st1 with svg := s, compiling := false }, true)
    | .thrown msg =>
        ({ st1 with errText := msg.getD "Typst compilation failed",
                    compiling := false }, true)

/-! ## Typst components: conflict-box (src/unnamed/part_000) -/

/-- One element of the `positions` array passed to `conflict-box`
(src/unnamed/part_000): a Typst dictionary with keys `source` and
`claim`, and an optional `citation` key (the component tests
`pos.keys().contains("citation")`). -/
structure ConflictPosition where
  source : String
  claim : String
  citation : Option String
deriving DecidableEq, Repr

/-- The content tokens emitted for one position inside `conflict-box`:
`- *#pos.source*: #pos.claim` followed by `(#pos.citation)` when the
`citation` key is present. -/
def renderPosition (pos : ConflictPosition) : List String :=
  ["- *", pos.source, "*: ", pos.claim] ++
    (match pos.citation with
     | some c => ["(", c, ")"]
     | none => [])

/-- Embedding of `conflict-box` (src/unnamed/part_000) as the sequence
of text tokens it lays out: the `Disputed: #topic` header, then the
loop over `positions`, then `Resolution: #resolution` when
`resolution != none`. -/
def conflictBox (topic : String) (positions : List ConflictPosition)
    (resolution : Option String) : List String :=
  ["Disputed: ", topic] ++ (positions.map renderPosition).flatten ++
    (match resolution with
     | some r => ["Resolution: ", r]
     | none => [])

/-! ## Backend core, modelled from the spec

The Python backend (Dispatcher, Claim Store, Synthesizer, Document
Projector, Session Controller) is not among the source files; the
definitions below are modelled from the specification text (sections 3,
4.2, 4.3, 4.4, 4.5, 7). -/

/-- Modelled from the spec: `BackendResult.status`, one of
ok / failed / timed-out (missing backend `orchestrator` code). -/
inductive RStatus
  | ok
  | failed
  | timedOut
deriving DecidableEq, Repr

/-- Modelled from the spec: a raw claim draft inside a `BackendResult`
(missing backend code): the extracted text plus its normalized
`topic_key`. -/
structure ClaimDraft where
  text : String
  topicKey : String
deriving DecidableEq, Repr

/-- Modelled from the spec: `BackendResult`, the output of one adapter
invocation (missing backend code): `backend_name`, `status`,
`raw_claims`, `error_detail`. -/
structure BackendResult where
  backendName : String
  status : RStatus
  rawClaims : List ClaimDraft
  errorDetail : Option String
deriving DecidableEq, Repr

/-- Modelled from the spec: `Citation`, linking one Claim to a backend
and optional URL (missing backend code). -/
structure RCitation where
  claimId : Nat
  llmSource : String
  underlyingUrl : Option String
deriving DecidableEq, Repr

/-- Modelled from the spec: `Claim` (missing backend code): id, text,
`topic_key`, `reporting_backends`, `citations`. -/
structure RClaim where
  id : Nat
  text : String
  topicKey : String
  reportingBackends : List String
  citations : List RCitation
deriving DecidableEq, Repr

/-- Modelled from the spec: `Conflict` (missing backend code): id,
`topic_key`, `member_claim_ids`, optional `resolution`. -/
structure RConflict where
  id : Nat
  topicKey : String
  memberClaimIds : List Nat
  resolution : Option String
deriving DecidableEq, Repr

/-- Modelled from the spec: the Claim Store state for one session
(missing backend code): all claims and conflicts plus fresh-id
counters. -/
structure Store where
  claims : List RClaim
  conflicts : List RConflict
  nextClaimId : Nat
  nextConflictId : Nat
deriving DecidableEq, Repr

/-- A session's Claim Store starts empty. -/
def emptyStore : Store := ⟨[], [], 0, 0⟩

/-- Modelled from the spec: the pluggable similarity predicate's
classification of two claim texts under one topic key, one of
duplicate / conflicting / unrelated. -/
inductive SimClass
  | duplicate
  | conflicting
  | unrelated
deriving DecidableEq, Repr

/-- Modelled from the spec: the dedup data effect — the earlier Claim's
`reporting_backends` set gains the new backend and its Citations gain
one more entry; the claim's id, text and topic key are untouched. -/
def mergeInto (backend : String) (c : RClaim) : RClaim :=
  { c with
    reportingBackends :=
      if backend ∈ c.reportingBackends then c.reportingBackends
      else c.reportingBackends ++ [backend],
    citations := c.citations ++ [⟨c.id, backend, none⟩] }

/-- The existing claim (if any) the draft merges into: same `topic_key`
and texts judged duplicate by the similarity predicate. -/
def mergeTarget (sim : String → String → SimClass) (d : ClaimDraft)
    (st : Store) : Option RClaim :=
  st.claims.find? fun c =>
    c.topicKey == d.topicKey && sim c.text d.text == SimClass.duplicate

/-- A brand-new Claim built from a draft: fresh id, the draft's text and
topic key, the reporting backend, and one initial citation. -/
def freshClaim (backend : String) (d : ClaimDraft) (st : Store) : RClaim :=
  { id := st.nextClaimId, text := d.text, topicKey := d.topicKey,
    reportingBackends := [backend],
    citations := [⟨st.nextClaimId, backend, none⟩] }

/-- The ids of the stored claims under the draft's topic key whose texts
the similarity predicate judges conflicting with the draft. -/
def conflictingIdsOf (sim : String → String → SimClass) (d : ClaimDraft)
    (st : Store) : List Nat :=
  (st.claims.filter fun c =>
    c.topicKey == d.topicKey && sim c.text d.text == SimClass.conflicting).map
    fun c => c.id

/-- The dedup data effect on the store: the targeted claim gains the new
backend and one citation; nothing else changes. -/
def mergeClaims (backend : String) (cid : Nat) (st : Store) : Store :=
  { st with claims := st.claims.map fun c1 =>
      if c1.id == cid then mergeInto backend c1 else c1 }

/-- Append a new claim and bump the fresh-id counter. -/
def insertClaim (c : RClaim) (st : Store) : Store :=
  { st with claims := st.claims ++ [c], nextClaimId := st.nextClaimId + 1 }

/-- Extend every conflict under the topic key with one more member claim
id. -/
def extendConflicts (mid : Nat) (tk : String) (st : Store) : Store :=
  { st with conflicts := st.conflicts.map fun cf =>
      if cf.topicKey == tk then
        { cf with memberClaimIds := cf.memberClaimIds ++ [mid] }
      else cf }

/-- Record a brand-new conflict under the topic key with the given
member claim ids. -/
def createConflict (tk : String) (members : List Nat) (st : Store) : Store :=
  { st with
    conflicts := st.conflicts ++
      [{ id := st.nextConflictId, topicKey := tk,
         memberClaimIds := members, resolution := none }],
    nextConflictId := st.nextConflictId + 1 }

/-- Modelled from the spec: the Synthesizer's add-or-merge-claim
operation (section 4.3, missing backend code). A draft whose text is a
duplicate of an existing claim under the same topic key is merged into
that claim and no new Claim is created; otherwise a new Claim is
appended, and if existing claims under the topic key are judged
conflicting, a Conflict is created or extended linking the claim ids. -/
def addDraft (sim : String → String → SimClass) (backend : String)
    (d : ClaimDraft) (st : Store) : Store :=
  match mergeTarget sim d st with
  | some c => mergeClaims backend c.id st
  | none =>
      if (conflictingIdsOf sim d st).isEmpty then
        insertClaim (freshClaim backend d st) st
      else if st.conflicts.any (fun cf => cf.topicKey == d.topicKey) then
        extendConflicts (freshClaim backend d st).id d.topicKey
          (insertClaim (freshClaim backend d st) st)
      else
        createConflict d.topicKey
          (conflictingIdsOf sim d st ++ [(freshClaim backend d st).id])
          (insertClaim (freshClaim backend d st) st)

/-- Modelled from the spec: resolve-conflict — sets `resolution` on the
named conflict, touching nothing else. -/
def resolveConflict (cid : Nat) (res : String) (st : Store) : Store :=
  { st with conflicts := st.conflicts.map fun cf =>
      if cf.id == cid then { cf with resolution := some res } else cf }

/-- The operations that mutate a session's Claim Store: the
Synthesizer's add-or-merge for one draft, and an external conflict
resolution. -/
inductive StoreOp
  | add (backend : String) (draft : ClaimDraft)
  | resolve (cid : Nat) (res : String)

/-- Apply one Claim Store operation. -/
def applyOp (sim : String → String → SimClass) (st : Store) :
    StoreOp → Store
  | .add b d => addDraft sim b d st
  | .resolve cid r => resolveConflict cid r st

/-- Run a sequence of Claim Store operations from the empty store. -/
def runOps (sim : String → String → SimClass) (ops : List StoreOp) : Store :=
  ops.foldl (applyOp sim) emptyStore

/-- Modelled from the spec: the Synthesizer's handling of one
`BackendResult` (section 4.3, missing backend code): for an ok result
every raw claim draft is added or merged; failed and timed-out results
record no claims. -/
def processResult (sim : String → String → SimClass) (st : Store)
    (r : BackendResult) : Store :=
  if r.status = RStatus.ok then
    r.rawClaims.foldl (fun s d => addDraft sim r.backendName d s) st
  else st

/-- Modelled from the spec: session lifecycle stages. -/
inductive Stage
  | dispatching
  | synthesizing
  | generating
  | done
  | failed
deriving DecidableEq, Repr

/-- Modelled from the spec: the Session aggregate (missing backend
code), with the failure detail kept as the list of failed backend
names. -/
structure Session where
  originalQuery : String
  stage : Stage
  failedBackends : List String
  store : Store
deriving Repr

/-- Modelled from the spec: one dispatch round (sections 4.2 and 7,
missing backend code). Every arrived `BackendResult` is fed to the
Synthesizer; if every adapter failed or timed out the Session enters
`failed` with a detail enumerating the failed backends, otherwise the
round runs to `done`. -/
def processRound (sim : String → String → SimClass) (sess : Session)
    (results : List BackendResult) : Session :=
  let store1 := results.foldl (processResult sim) sess.store
  if results ≠ [] ∧ results.all (fun r => r.status != RStatus.ok) then
    { sess with stage := Stage.failed,
                failedBackends :=
                  (results.filter fun r => r.status != RStatus.ok).map
                    fun r => r.backendName,
                store := store1 }
  else
    { sess with stage := Stage.done, store := store1 }

/-- Modelled from the spec: what one adapter invocation came back with —
a successful result, an application-level failure, or a timeout. -/
inductive AdapterOutcome
  | success (drafts : List ClaimDraft)
  | failure (msg : String)
  | timeout
deriving Repr

/-- Modelled from the spec: packaging an adapter outcome as a
`BackendResult` (missing backend code): `error_detail` is filled in for
failures and timeouts and absent for ok results. -/
def mkBackendResult (name : String) : AdapterOutcome → BackendResult
  | .success drafts => ⟨name, RStatus.ok, drafts, none⟩
  | .failure msg => ⟨name, RStatus.failed, [], some msg⟩
  | .timeout => ⟨name, RStatus.timedOut, [], some "timed out after deadline"⟩

/-- Modelled from the spec: the per-backend `backend_update` status
event derived from a `BackendResult` (section 6, missing backend
code). -/
structure BackendUpdateEvent where
  name : String
  statusStr : String
  claimCount : Option Nat
  errField : Option String
deriving DecidableEq, Repr

/-- Modelled from the spec: how one `BackendResult` surfaces on the
status stream: ok results show `done` with a claim count and no error;
failed and timed-out results show `failed` carrying the error detail. -/
def toBackendUpdate (r : BackendResult) : BackendUpdateEvent :=
  { name := r.backendName,
    statusStr := if r.status = RStatus.ok then "done" else "failed",
    claimCount := if r.status = RStatus.ok then some r.rawClaims.length else none,
    errField := r.errorDetail }

/-! ## Document Projector, modelled from the spec (section 4.5) -/

/-- Modelled from the spec: one section of the structured document —
a topic, its claims with citations, and the conflicts under that
topic. -/
structure DocSection where
  title : String
  sectionClaims : List RClaim
  sectionConflicts : List RConflict
deriving DecidableEq, Repr

/-- Modelled from the spec: the render-agnostic structured document the
Projector derives. -/
structure StructuredDocument where
  queryTitle : String
  sections : List DocSection
deriving DecidableEq, Repr

/-- Modelled from the spec: the Document Projector (missing backend
code) — a function from a Claim Store snapshot and the original query
to a structured document with one ordered section per topic key. -/
def projectDocument (st : Store) (query : String) : StructuredDocument :=
  { queryTitle := query,
    sections := ((st.claims.map fun c => c.topicKey).dedup).map fun t =>
      { title := t,
        sectionClaims := st.claims.filter fun c => c.topicKey == t,
        sectionConflicts := st.conflicts.filter fun cf => cf.topicKey == t } }

/-- Serialize one citation for byte comparison of projections. -/
def renderCitation (ct : RCitation) : String :=
  "[" ++ toString ct.claimId ++ "|" ++ ct.llmSource ++ "|" ++
    ct.underlyingUrl.getD "-" ++ "]"

/-- Serialize one claim for byte comparison of projections. -/
def renderClaim (c : RClaim) : String :=
  toString c.id ++ ":" ++ c.text ++ ":" ++
    String.intercalate "," c.reportingBackends ++ ":" ++
    String.intercalate "" (c.citations.map renderCitation)

/-- Serialize one conflict for byte comparison of projections. -/
def renderConflict (cf : RConflict) : String :=
  toString cf.id ++ ":" ++ cf.topicKey ++ ":" ++
    String.intercalate "," (cf.memberClaimIds.map toString) ++ ":" ++
    cf.resolution.getD "-"

/-- Serialize a structured document to its byte content, so that two
projector runs can be compared byte for byte. -/
def renderDocument (d : StructuredDocument) : String :=
  d.queryTitle ++ "\n" ++
    String.intercalate "\n" (d.sections.map fun s =>
      "## " ++ s.title ++ "\n" ++
        String.intercalate "\n" (s.sectionClaims.map renderClaim) ++ "\n" ++
        String.intercalate "\n" (s.sectionConflicts.map renderConflict))

/-- The positions the rendering layer hands to `conflict-box` for one
stored Conflict: one entry per member claim id, resolved against the
store's claims. -/
def conflictPositions (st : Store) (cf : RConflict) : List ConflictPosition :=
  cf.memberClaimIds.filterMap fun mid =>
    (st.claims.find? fun c => c.id == mid).map fun c =>
      { source := String.intercalate ", " c.reportingBackends,
        claim := c.text,
        citation := c.citations.head?.map fun ct => ct.llmSource }

/-! ## Concrete instances used for evaluation -/

/-- A concrete instance of the pluggable similarity predicate: identical
texts are duplicates, differing texts under the same topic key are
conflicting. -/
def simDemo (a b : String) : SimClass :=
  if a = b then SimClass.duplicate else SimClass.conflicting

/-- A concrete claim draft. -/
def demoDraft : ClaimDraft := ⟨"Revenue is 2.1B", "acme-revenue"⟩

/-- A second concrete claim draft under the same topic key with a
different text. -/
def demoDraft2 : ClaimDraft := ⟨"Revenue is 1.8B", "acme-revenue"⟩

/-- Two adds of disagreeing drafts under one topic key. -/
def demoOps : List StoreOp :=
  [StoreOp.add "gemini" demoDraft, StoreOp.add "grok" demoDraft2]

/-- The Conflict the demo operations produce: both claim ids under the
shared topic key, unresolved. -/
def demoConflict : RConflict := ⟨0, "acme-revenue", [0, 1], none⟩

/-- A concrete session before a round. -/
def demoSession : Session := ⟨"acme revenue", Stage.dispatching, [], emptyStore⟩

/-- A round in which every adapter failed or timed out. -/
def demoFailedResults : List BackendResult :=
  [mkBackendResult "gemini" (AdapterOutcome.failure "rate limited"),
   mkBackendResult "grok" AdapterOutcome.timeout]

/-! ## Claim Store well-formedness -/

/-- The Claim Store invariants the spec states for Conflicts, together
with the bookkeeping facts (fresh ids are strictly above every stored
claim id, claim ids are distinct) that keep them inductive. -/
structure StoreWF (st : Store) : Prop where
  idsBound : ∀ c ∈ st.claims, c.id < st.nextClaimId
  idsNodup : (st.claims.map fun c => c.id).Nodup
  conflictsWF : ∀ cf ∈ st.conflicts,
    2 ≤ cf.memberClaimIds.length ∧ cf.memberClaimIds.Nodup ∧
    ∀ mid ∈ cf.memberClaimIds, ∃ c ∈ st.claims,
      c.id = mid ∧ c.topicKey = cf.topicKey

/-! ## Theorems -/

/-- C1, counterexample: the outbound event carrying a projected document
is tagged `report` (with field `typst_source`), not `document`: the
concrete message `report "doc"` changes the client's document state
while its type discriminant differs from `"document"`. -/
theorem report_event_not_document_tagged :
    (handleMessage (WSMessage.report "doc") wsInit).typstSource ≠
      wsInit.typstSource ∧
    (WSMessage.report "doc").msgType ≠ "document" := by
  decide

/-- C1, amended: every message that updates the client's document state
(`typstSource`) is a `report`-typed event, its payload is carried in the
`typst_source` field, and the handler installs exactly that payload. -/
theorem document_state_updates_only_from_report (m : WSMessage) (st : WSState)
    (h : (handleMessage m st).typstSource ≠ st.typstSource) :
    m.msgType = "report" ∧
    ∃ s, m = WSMessage.report s ∧ (handleMessage m st).typstSource = s := by
  cases m <;> simp [handleMessage, WSMessage.msgType] at h ⊢

/-- C1, witness: the amended theorem applied to the concrete message
`report "q"` on the initial hook state. -/
theorem document_state_updates_only_from_report_witness :
    (WSMessage.report "q").msgType = "report" ∧
    ∃ s, WSMessage.report "q" = WSMessage.report s ∧
      (handleMessage (WSMessage.report "q") wsInit).typstSource = s :=
  document_state_updates_only_from_report (WSMessage.report "q") wsInit
    (by decide)

/-- C5, counterexample: `pending` is not among the backend statuses the
frontend can represent — no `BackendInfo.status` value denotes
`"pending"`, and the `STATUS_ICON` record has no `pending` entry. -/
theorem no_pending_backend_status :
    BackendStatus.searching.toStr ≠ "pending" ∧
    BackendStatus.done.toStr ≠ "pending" ∧
    BackendStatus.failed.toStr ≠ "pending" ∧
    STATUS_ICON "pending" = none := by
  decide

/-- C5, amended: in every status event the `backends` entries carry a
status drawn from exactly the set searching, done, failed: every
representable status is one of the three strings, each of the three is
attained, and each has its own `STATUS_ICON` entry. -/
theorem backend_status_set_exact :
    (∀ s : BackendStatus,
      s.toStr = "searching" ∨ s.toStr = "done" ∨ s.toStr = "failed") ∧
    (∃ s : BackendStatus, s.toStr = "searching") ∧
    (∃ s : BackendStatus, s.toStr = "done") ∧
    (∃ s : BackendStatus, s.toStr = "failed") ∧
    (∀ s : BackendStatus, (STATUS_ICON s.toStr).isSome = true) := by
  decide

/-- C7: a `BackendResult` carries an `error_detail` exactly when its
status is not ok, and the derived `backend_update` event carries its
`error` field exactly in the same cases. -/
theorem error_detail_iff_not_ok (name : String) (o : AdapterOutcome) :
    ((mkBackendResult name o).errorDetail.isSome ↔
      (mkBackendResult name o).status ≠ RStatus.ok) ∧
    ((toBackendUpdate (mkBackendResult name o)).errField.isSome ↔
      (mkBackendResult name o).status ≠ RStatus.ok) := by
  cases o <;> simp [mkBackendResult, toBackendUpdate]

/-- C8: the Document Projector is a pure function of the snapshot and
the query — projecting equal snapshots yields the same structured
document and byte-identical serialized output. -/
theorem projector_pure (s₁ s₂ : Store) (q : String) (h : s₁ = s₂) :
    projectDocument s₁ q = projectDocument s₂ q ∧
    renderDocument (projectDocument s₁ q) =
      renderDocument (projectDocument s₂ q) := by
  subst h
  exact ⟨rfl, rfl⟩

/-- C8, witness: the purity theorem applied to the concrete store built
by the demo operations. -/
theorem projector_pure_witness :
    projectDocument (runOps simDemo demoOps) "acme revenue" =
      projectDocument (runOps simDemo demoOps) "acme revenue" ∧
    renderDocument (projectDocument (runOps simDemo demoOps) "acme revenue") =
      renderDocument (projectDocument (runOps simDemo demoOps) "acme revenue") :=
  projector_pure (runOps simDemo demoOps) (runOps simDemo demoOps)
    "acme revenue" rfl

/-- C9: calling `compile` with an empty source or with the most recently
compiled source returns the state unchanged without invoking the
compiler, and after one actual compilation a second `compile` of the
same source performs no compilation. -/
theorem compile_guard_at_most_once (source : String)
    (o₁ o₂ : CompileOutcome) (st : TypstState) :
    ((source = "" ∨ source = st.lastSource) →
      compile source o₁ st = (st, false)) ∧
    ((compile source o₁ st).2 = true →
      compile source o₂ (compile source o₁ st).1 =
        ((compile source o₁ st).1, false)) := by
  constructor
  · intro h
    unfold compile
    rw [if_pos h]
  · intro h2
    by_cases hg : source = "" ∨ source = st.lastSource
    · unfold compile at h2
      rw [if_pos hg] at h2
      simp at h2
    · unfold compile at h2 ⊢
      rw [if_neg hg] at h2 ⊢
      cases o₁ <;> simp [compile]


/-- C9, witness: the guard theorem applied concretely — an empty source
is a no-op, and compiling "q" twice leaves the second call without a
compiler invocation. -/
theorem compile_guard_at_most_once_witness :
    compile "" (CompileOutcome.okSvg "x") typstInit = (typstInit, false) ∧
    compile "q" (CompileOutcome.okSvg "y")
        (compile "q" (CompileOutcome.okSvg "x") typstInit).1 =
      ((compile "q" (CompileOutcome.okSvg "x") typstInit).1, false) :=
  ⟨(compile_guard_at_most_once "" (CompileOutcome.okSvg "x")
      (CompileOutcome.okSvg "x") typstInit).1 (Or.inl rfl),
   (compile_guard_at_most_once "q" (CompileOutcome.okSvg "x")
      (CompileOutcome.okSvg "y") typstInit).2 (by decide)⟩

/-- C10: when the Typst compilation of a fresh source throws, `compile`
sets `error` to the thrown message (or the fallback text) and leaves the
previously rendered `svg` untouched, and whatever the outcome,
`compiling` is false once `compile` finishes. -/
theorem compile_failure_keeps_svg (source : String) (msg : Option String)
    (st : TypstState) (hne : source ≠ "") (hnew : source ≠ st.lastSource) :
    (compile source (CompileOutcome.thrown msg) st).1.errText =
      msg.getD "Typst compilation failed" ∧
    (compile source (CompileOutcome.thrown msg) st).1.svg = st.svg ∧
    ∀ o : CompileOutcome, (compile source o st).1.compiling = false := by
  have hg : ¬ (source = "" ∨ source = st.lastSource) := not_or.mpr ⟨hne, hnew⟩
  refine ⟨?_, ?_, ?_⟩
  · unfold compile
    rw [if_neg hg]
  · unfold compile
    rw [if_neg hg]
  · intro o
    unfold compile
    rw [if_neg hg]
    cases o <;> rfl

/-- C10, witness: the failure theorem applied to the fresh source "q"
thrown with message "boom" on the initial hook state. -/
theorem compile_failure_keeps_svg_witness :
    (compile "q" (CompileOutcome.thrown (some "boom")) typstInit).1.errText =
      (some "boom").getD "Typst compilation failed" ∧
    (compile "q" (CompileOutcome.thrown (some "boom")) typstInit).1.svg =
      typstInit.svg ∧
    ∀ o : CompileOutcome, (compile "q" o typstInit).1.compiling = false :=
  compile_failure_keeps_svg "q" (some "boom") typstInit (by decide) (by decide)

/-- Every token of a rendered position occurs in the conflict box output
when the position is among the rendered positions. -/
theorem mem_conflictBox_of_mem_renderPosition (topic : String)
    (positions : List ConflictPosition) (resolution : Option String)
    (pos : ConflictPosition) (hpos : pos ∈ positions) (x : String)
    (hx : x ∈ renderPosition pos) :
    x ∈ conflictBox topic positions resolution := by
  unfold conflictBox
  refine List.mem_append_left _ (List.mem_append_right _ ?_)
  exact List.mem_flatten.mpr ⟨renderPosition pos,
    List.mem_map.mpr ⟨pos, hpos, rfl⟩, hx⟩

/-- C2: for every member position, the conflict box lists its backend
name (`source`), its claim text, and its citation when the position
carries one; and when a resolution is present the resolution line is
appended. -/
theorem conflictBox_lists_all_members (topic : String)
    (positions : List ConflictPosition) (resolution : Option String)
    (pos : ConflictPosition) (hpos : pos ∈ positions) :
    pos.source ∈ conflictBox topic positions resolution ∧
    pos.claim ∈ conflictBox topic positions resolution ∧
    (∀ c, pos.citation = some c →
      c ∈ conflictBox topic positions resolution) ∧
    (∀ r, resolution = some r →
      "Resolution: " ∈ conflictBox topic positions resolution ∧
      r ∈ conflictBox topic positions resolution) := by
  refine ⟨?_, ?_, ?_, ?_⟩
  · exact mem_conflictBox_of_mem_renderPosition topic positions resolution
      pos hpos pos.source (by cases h : pos.citation <;> simp [renderPosition, h])
  · exact mem_conflictBox_of_mem_renderPosition topic positions resolution
      pos hpos pos.claim (by cases h : pos.citation <;> simp [renderPosition, h])
  · intro c hc
    exact mem_conflictBox_of_mem_renderPosition topic positions resolution
      pos hpos c (by simp [renderPosition, hc])
  · intro r hr
    constructor <;>
      · unfold conflictBox
        rw [hr]
        exact List.mem_append_right _ (by simp)

/-- C2, witness: the conflict box theorem applied to a concrete disputed
topic with two positions, one carrying a citation, and a resolution. -/
theorem conflictBox_lists_all_members_witness :
    let pos₁ : ConflictPosition := ⟨"Gemini", "2.1B", some "Reuters"⟩
    let pos₂ : ConflictPosition := ⟨"Grok", "1.8B", none⟩
    pos₁.source ∈ conflictBox "acme" [pos₁, pos₂] (some "audited") ∧
    pos₁.claim ∈ conflictBox "acme" [pos₁, pos₂] (some "audited") ∧
    (∀ c, pos₁.citation = some c →
      c ∈ conflictBox "acme" [pos₁, pos₂] (some "audited")) ∧
    (∀ r, (some "audited" : Option String) = some r →
      "Resolution: " ∈ conflictBox "acme" [pos₁, pos₂] (some "audited") ∧
      r ∈ conflictBox "acme" [pos₁, pos₂] (some "audited")) :=
  conflictBox_lists_all_members "acme"
    [⟨"Gemini", "2.1B", some "Reuters"⟩, ⟨"Grok", "1.8B", none⟩]
    (some "audited") ⟨"Gemini", "2.1B", some "Reuters"⟩ (by simp)

/-- Feeding only failed or timed-out results to the Synthesizer leaves
the Claim Store untouched. -/
theorem foldl_processResult_of_none_ok (sim : String → String → SimClass)
    (results : List BackendResult) :
    ∀ st : Store, (∀ r ∈ results, r.status ≠ RStatus.ok) →
      results.foldl (processResult sim) st = st := by
  induction results with
  | nil => intro st _; rfl
  | cons r rs ih =>
      intro st h
      have hr : r.status ≠ RStatus.ok := h r (by simp)
      rw [List.foldl_cons]
      have hstep : processResult sim st r = st := by simp [processResult, hr]
      rw [hstep]
      exact ih st fun r2 hr2 => h r2 (by simp [hr2])

/-- C4: when every adapter in a round failed or timed out, the session
reaches the failed stage, the failure detail names every failed backend,
and the Claim Store gains no claims from that round. -/
theorem all_failed_round_fails_session (sim : String → String → SimClass)
    (sess : Session) (results : List BackendResult)
    (hne : results ≠ [])
    (hall : ∀ r ∈ results, r.status ≠ RStatus.ok) :
    (processRound sim sess results).stage = Stage.failed ∧
    (∀ r ∈ results,
      r.backendName ∈ (processRound sim sess results).failedBackends) ∧
    (processRound sim sess results).store = sess.store := by
  have hcond : results ≠ [] ∧ results.all (fun r => r.status != RStatus.ok) := by
    refine ⟨hne, ?_⟩
    rw [List.all_eq_true]
    intro r hr
    exact bne_iff_ne.mpr (hall r hr)
  unfold processRound
  rw [if_pos hcond]
  refine ⟨rfl, ?_, ?_⟩
  · intro r hr
    exact List.mem_map.mpr
      ⟨r, List.mem_filter.mpr ⟨hr, bne_iff_ne.mpr (hall r hr)⟩, rfl⟩
  · exact foldl_processResult_of_none_ok sim results sess.store hall

/-- C4, witness: the all-failed theorem applied to a concrete round in
which gemini fails and grok times out. -/
theorem all_failed_round_fails_session_witness :
    (processRound simDemo demoSession demoFailedResults).stage = Stage.failed ∧
    (∀ r ∈ demoFailedResults, r.backendName ∈
      (processRound simDemo demoSession demoFailedResults).failedBackends) ∧
    (processRound simDemo demoSession demoFailedResults).store =
      demoSession.store :=
  all_failed_round_fails_session simDemo demoSession demoFailedResults
    (by decide) (by decide)


/-- C3: two claim drafts with equal topic key whose texts the similarity
predicate judges duplicate produce exactly one Claim: its
`reporting_backends` contains both originating backends, its citations
gained one entry attributed to the second backend, and no second Claim
or Conflict is created. -/
theorem duplicate_drafts_merge_once (sim : String → String → SimClass)
    (b₁ b₂ : String) (d₁ d₂ : ClaimDraft)
    (hk : d₁.topicKey = d₂.topicKey)
    (hdup : sim d₁.text d₂.text = SimClass.duplicate) :
    ∃ c : RClaim,
      (addDraft sim b₂ d₂ (addDraft sim b₁ d₁ emptyStore)).claims = [c] ∧
      b₁ ∈ c.reportingBackends ∧ b₂ ∈ c.reportingBackends ∧
      c.citations.length = 2 ∧
      (∃ ct, c.citations.getLast? = some ct ∧ ct.llmSource = b₂) ∧
      (addDraft sim b₂ d₂ (addDraft sim b₁ d₁ emptyStore)).conflicts = [] := by
  have h1 : addDraft sim b₁ d₁ emptyStore =
      ⟨[⟨0, d₁.text, d₁.topicKey, [b₁], [⟨0, b₁, none⟩]⟩], [], 1, 0⟩ := rfl
  have hmt : mergeTarget sim d₂
      (⟨[⟨0, d₁.text, d₁.topicKey, [b₁], [⟨0, b₁, none⟩]⟩], [], 1, 0⟩ : Store) =
      some ⟨0, d₁.text, d₁.topicKey, [b₁], [⟨0, b₁, none⟩]⟩ := by
    unfold mergeTarget
    apply List.find?_cons_of_pos
    simp [hk, hdup]
  have h2 : addDraft sim b₂ d₂ (addDraft sim b₁ d₁ emptyStore) =
      ⟨[mergeInto b₂ ⟨0, d₁.text, d₁.topicKey, [b₁], [⟨0, b₁, none⟩]⟩],
        [], 1, 0⟩ := by
    rw [h1]
    unfold addDraft
    rw [hmt]
    rfl
  rw [h2]
  refine ⟨mergeInto b₂ ⟨0, d₁.text, d₁.topicKey, [b₁], [⟨0, b₁, none⟩]⟩,
    rfl, ?_, ?_, ?_, ?_, rfl⟩
  · by_cases hb : b₂ = b₁ <;> simp [mergeInto, hb]
  · by_cases hb : b₂ = b₁ <;> simp [mergeInto, hb]
  · rfl
  · exact ⟨⟨0, b₂, none⟩, rfl, rfl⟩

/-- C3, witness: the dedup theorem applied to the same draft reported by
gemini and then grok under the demo similarity predicate. -/
theorem duplicate_drafts_merge_once_witness :
    ∃ c : RClaim,
      (addDraft simDemo "grok" demoDraft
        (addDraft simDemo "gemini" demoDraft emptyStore)).claims = [c] ∧
      "gemini" ∈ c.reportingBackends ∧ "grok" ∈ c.reportingBackends ∧
      c.citations.length = 2 ∧
      (∃ ct, c.citations.getLast? = some ct ∧ ct.llmSource = "grok") ∧
      (addDraft simDemo "grok" demoDraft
        (addDraft simDemo "gemini" demoDraft emptyStore)).conflicts = [] :=
  duplicate_drafts_merge_once simDemo "gemini" "grok" demoDraft demoDraft
    rfl (by decide)


/-- Merging a backend into a claim never changes the claim's id. -/
theorem mergeInto_id (b : String) (c : RClaim) : (mergeInto b c).id = c.id := rfl

/-- Merging a backend into a claim never changes the claim's topic
key. -/
theorem mergeInto_topicKey (b : String) (c : RClaim) :
    (mergeInto b c).topicKey = c.topicKey := rfl

/-- The empty Claim Store is well-formed. -/
theorem storeWF_empty : StoreWF emptyStore := by
  constructor
  · intro c hc
    simp [emptyStore] at hc
  · simp [emptyStore]
  · intro cf hcf
    simp [emptyStore] at hcf

/-- A list with all-`some` images through `filterMap` keeps its
length. -/
theorem length_filterMap_of_isSome {α β : Type} (f : α → Option β) :
    ∀ l : List α, (∀ a ∈ l, (f a).isSome) → (l.filterMap f).length = l.length := by
  intro l
  induction l with
  | nil => intro _; rfl
  | cons a as ih =>
      intro h
      obtain ⟨b, hb⟩ := Option.isSome_iff_exists.mp (h a (by simp))
      rw [List.filterMap_cons, hb]
      simp only [List.length_cons]
      rw [ih fun a2 h2 => h a2 (by simp [h2])]


/-- Dedup merging preserves Claim Store well-formedness: claim ids and
topic keys are untouched, so every invariant carries over. -/
theorem mergeClaims_wf (b : String) (cid : Nat) (st : Store)
    (wf : StoreWF st) : StoreWF (mergeClaims b cid st) := by
  constructor
  · intro c1 hc1
    rcases List.mem_map.mp hc1 with ⟨c0, hc0, rfl⟩
    have hid : (if (c0.id == cid) = true then mergeInto b c0 else c0).id =
        c0.id := by
      split <;> rfl
    rw [hid]
    exact wf.idsBound c0 hc0
  · have heq : ((st.claims.map fun c1 =>
        if c1.id == cid then mergeInto b c1 else c1).map fun c2 => c2.id) =
        st.claims.map fun c2 => c2.id := by
      rw [List.map_map]
      refine List.map_congr_left fun c0 _ => ?_
      simp only [Function.comp_apply]
      split <;> rfl
    show ((st.claims.map fun c1 =>
      if c1.id == cid then mergeInto b c1 else c1).map fun c2 => c2.id).Nodup
    rw [heq]
    exact wf.idsNodup
  · intro cf hcf
    obtain ⟨hlen, hnd, hmem⟩ := wf.conflictsWF cf hcf
    refine ⟨hlen, hnd, ?_⟩
    intro mid hmid
    obtain ⟨c0, hc0, hcid, hctk⟩ := hmem mid hmid
    refine ⟨if c0.id == cid then mergeInto b c0 else c0,
      List.mem_map.mpr ⟨c0, hc0, rfl⟩, ?_, ?_⟩
    · split <;> simp [mergeInto_id, hcid]
    · split <;> simp [mergeInto_topicKey, hctk]

/-- Appending a fresh claim preserves Claim Store well-formedness. -/
theorem insertClaim_fresh_wf (b : String) (d : ClaimDraft) (st : Store)
    (wf : StoreWF st) : StoreWF (insertClaim (freshClaim b d st) st) := by
  constructor
  · intro c1 hc1
    rcases List.mem_append.mp hc1 with h | h
    · exact Nat.lt_succ_of_lt (wf.idsBound c1 h)
    · simp only [List.mem_singleton] at h
      subst h
      exact Nat.lt_succ_self _
  · show ((st.claims ++ [freshClaim b d st]).map fun c1 => c1.id).Nodup
    rw [List.map_append, List.nodup_append]
    refine ⟨wf.idsNodup, by simp, ?_⟩
    intro a ha hb2
    simp only [freshClaim, List.map_cons, List.map_nil,
      List.mem_singleton] at hb2
    rcases List.mem_map.mp ha with ⟨c0, hc0, hceq⟩
    have hlt := wf.idsBound c0 hc0
    rw [hceq, hb2] at hlt
    exact absurd hlt (lt_irrefl _)
  · intro cf hcf
    obtain ⟨hlen, hnd, hmem⟩ := wf.conflictsWF cf hcf
    refine ⟨hlen, hnd, ?_⟩
    intro mid hmid
    obtain ⟨c0, hc0, hcid, hctk⟩ := hmem mid hmid
    exact ⟨c0, List.mem_append_left _ hc0, hcid, hctk⟩

/-- Extending the conflicts under the fresh claim's topic key preserves
well-formedness: lengths only grow, the fresh id is new to every member
list, and the fresh claim itself witnesses the new member. -/
theorem extendConflicts_fresh_wf (b : String) (d : ClaimDraft) (st : Store)
    (wf : StoreWF st) :
    StoreWF (extendConflicts (freshClaim b d st).id d.topicKey
      (insertClaim (freshClaim b d st) st)) := by
  have base := insertClaim_fresh_wf b d st wf
  constructor
  · exact base.idsBound
  · exact base.idsNodup
  · intro cf1 hcf1
    rcases List.mem_map.mp hcf1 with ⟨cf0, hcf0, rfl⟩
    obtain ⟨hlen, hnd, hmem⟩ := wf.conflictsWF cf0 hcf0
    by_cases hc : (cf0.topicKey == d.topicKey) = true
    · rw [if_pos hc]
      refine ⟨?_, ?_, ?_⟩
      · rw [List.length_append]
        exact le_trans hlen (Nat.le_add_right _ _)
      · have hnotin : (freshClaim b d st).id ∉ cf0.memberClaimIds := by
          intro hin
          obtain ⟨c0, hc0, hcid, _⟩ := hmem _ hin
          have hlt := wf.idsBound c0 hc0
          rw [hcid] at hlt
          simp [freshClaim] at hlt
        rw [List.nodup_append]
        refine ⟨hnd, by simp, ?_⟩
        intro a ha hax
        simp only [List.mem_singleton] at hax
        subst hax
        exact hnotin ha
      · intro mid hmid
        rcases List.mem_append.mp hmid with h | h
        · obtain ⟨c0, hc0, hcid, hctk⟩ := hmem mid h
          exact ⟨c0, List.mem_append_left _ hc0, hcid, hctk⟩
        · simp only [List.mem_singleton] at h
          subst h
          refine ⟨freshClaim b d st, List.mem_append_right _ (by simp),
            rfl, ?_⟩
          have h2 := beq_iff_eq.mp hc
          simp [freshClaim, h2]
    · rw [if_neg hc]
      refine ⟨hlen, hnd, ?_⟩
      intro mid hmid
      obtain ⟨c0, hc0, hcid, hctk⟩ := hmem mid hmid
      exact ⟨c0, List.mem_append_left _ hc0, hcid, hctk⟩

/-- Creating a conflict from a nonempty conflicting-id set plus the
fresh claim preserves well-formedness: the new member list has at least
two distinct ids and every member resolves to a stored claim under the
conflict's topic key. -/
theorem createConflict_fresh_wf (sim : String → String → SimClass)
    (b : String) (d : ClaimDraft) (st : Store) (wf : StoreWF st)
    (hemp : ¬ (conflictingIdsOf sim d st).isEmpty = true) :
    StoreWF (createConflict d.topicKey
      (conflictingIdsOf sim d st ++ [(freshClaim b d st).id])
      (insertClaim (freshClaim b d st) st)) := by
  have base := insertClaim_fresh_wf b d st wf
  constructor
  · exact base.idsBound
  · exact base.idsNodup
  · intro cf1 hcf1
    rcases List.mem_append.mp hcf1 with h | h
    · exact base.conflictsWF cf1 h
    · simp only [List.mem_singleton] at h
      subst h
      refine ⟨?_, ?_, ?_⟩
      · have hne : conflictingIdsOf sim d st ≠ [] := by
          intro h0
          rw [h0] at hemp
          simp at hemp
        have h1 : 0 < (conflictingIdsOf sim d st).length :=
          List.length_pos.mpr hne
        rw [List.length_append]
        simp only [List.length_cons, List.length_nil]
        omega
      · have hsub : (conflictingIdsOf sim d st).Sublist
            (st.claims.map fun c => c.id) := by
          unfold conflictingIdsOf
          exact List.Sublist.map _ (List.filter_sublist st.claims)
        have hnd := List.Sublist.nodup hsub wf.idsNodup
        have hnotin : (freshClaim b d st).id ∉ conflictingIdsOf sim d st := by
          intro hin
          unfold conflictingIdsOf at hin
          rcases List.mem_map.mp hin with ⟨c0, hc0, hceq⟩
          have hlt := wf.idsBound c0 (List.mem_filter.mp hc0).1
          rw [hceq] at hlt
          simp [freshClaim] at hlt
        rw [List.nodup_append]
        refine ⟨hnd, by simp, ?_⟩
        intro a ha hax
        simp only [List.mem_singleton] at hax
        subst hax
        exact hnotin ha
      · intro mid hmid
        rcases List.mem_append.mp hmid with h | h
        · unfold conflictingIdsOf at h
          rcases List.mem_map.mp h with ⟨c0, hc0, hceq⟩
          have hc2 := List.mem_filter.mp hc0
          have htk := (Bool.and_eq_true_iff.mp hc2.2).1
          exact ⟨c0, List.mem_append_left _ hc2.1, hceq, beq_iff_eq.mp htk⟩
        · simp only [List.mem_singleton] at h
          subst h
          exact ⟨freshClaim b d st, List.mem_append_right _ (by simp),
            rfl, rfl⟩

/-- The Synthesizer's add-or-merge preserves Claim Store
well-formedness. -/
theorem addDraft_wf (sim : String → String → SimClass) (b : String)
    (d : ClaimDraft) (st : Store) (wf : StoreWF st) :
    StoreWF (addDraft sim b d st) := by
  unfold addDraft
  cases hmt : mergeTarget sim d st with
  | some c => exact mergeClaims_wf b c.id st wf
  | none =>
      by_cases hemp : (conflictingIdsOf sim d st).isEmpty
      · rw [if_pos hemp]
        exact insertClaim_fresh_wf b d st wf
      · rw [if_neg hemp]
        by_cases hany : st.conflicts.any fun cf => cf.topicKey == d.topicKey
        · rw [if_pos hany]
          exact extendConflicts_fresh_wf b d st wf
        · rw [if_neg hany]
          exact createConflict_fresh_wf sim b d st wf hemp

/-- Resolving a conflict preserves Claim Store well-formedness: member
lists, topic keys and claims are untouched. -/
theorem resolveConflict_wf (cid : Nat) (r : String) (st : Store)
    (wf : StoreWF st) : StoreWF (resolveConflict cid r st) := by
  constructor
  · exact wf.idsBound
  · exact wf.idsNodup
  · intro cf1 hcf1
    rcases List.mem_map.mp hcf1 with ⟨cf0, hcf0, rfl⟩
    obtain ⟨hlen, hnd, hmem⟩ := wf.conflictsWF cf0 hcf0
    have hm : (if (cf0.id == cid) = true then
        { cf0 with resolution := some r } else cf0).memberClaimIds =
        cf0.memberClaimIds := by
      split <;> rfl
    have ht : (if (cf0.id == cid) = true then
        { cf0 with resolution := some r } else cf0).topicKey =
        cf0.topicKey := by
      split <;> rfl
    rw [hm, ht]
    exact ⟨hlen, hnd, hmem⟩

/-- Every Claim Store operation preserves well-formedness. -/
theorem applyOp_wf (sim : String → String → SimClass) (st : Store)
    (op : StoreOp) (wf : StoreWF st) : StoreWF (applyOp sim st op) := by
  cases op with
  | add b d => exact addDraft_wf sim b d st wf
  | resolve cid r => exact resolveConflict_wf cid r st wf

/-- Folding Claim Store operations preserves well-formedness. -/
theorem foldl_applyOp_wf (sim : String → String → SimClass)
    (ops : List StoreOp) :
    ∀ st : Store, StoreWF st → StoreWF (ops.foldl (applyOp sim) st) := by
  induction ops with
  | nil => intro st wf; exact wf
  | cons op ops ih =>
      intro st wf
      rw [List.foldl_cons]
      exact ih _ (applyOp_wf sim st op wf)

/-- Any sequence of Claim Store operations from the empty store yields a
well-formed store. -/
theorem runOps_wf (sim : String → String → SimClass) (ops : List StoreOp) :
    StoreWF (runOps sim ops) :=
  foldl_applyOp_wf sim ops emptyStore storeWF_empty


/-- C6: after any sequence of Claim Store operations, every stored
Conflict has at least two distinct member claim ids, every member
resolves to a stored Claim sharing the conflict's topic key, and the
rendering layer receives at least two positions for it. -/
theorem conflict_always_two_distinct_members
    (sim : String → String → SimClass) (ops : List StoreOp)
    (cf : RConflict) (hcf : cf ∈ (runOps sim ops).conflicts) :
    2 ≤ cf.memberClaimIds.length ∧ cf.memberClaimIds.Nodup ∧
    (∀ mid ∈ cf.memberClaimIds, ∃ c ∈ (runOps sim ops).claims,
      c.id = mid ∧ c.topicKey = cf.topicKey) ∧
    2 ≤ (conflictPositions (runOps sim ops) cf).length := by
  obtain ⟨hlen, hnd, hmem⟩ := (runOps_wf sim ops).conflictsWF cf hcf
  refine ⟨hlen, hnd, hmem, ?_⟩
  have hl : (conflictPositions (runOps sim ops) cf).length =
      cf.memberClaimIds.length := by
    unfold conflictPositions
    apply length_filterMap_of_isSome
    intro mid hmid
    obtain ⟨c0, hc0, hcid, _⟩ := hmem mid hmid
    have hfind : ((runOps sim ops).claims.find? fun c => c.id == mid).isSome := by
      rcases hf : (runOps sim ops).claims.find? fun c => c.id == mid with _ | c2
      · exact absurd (beq_iff_eq.mpr hcid) (List.find?_eq_none.mp hf c0 hc0)
      · rw [hf]
        rfl
    simpa [Option.isSome_map'] using hfind
  rw [hl]
  exact hlen

/-- C6, witness: the invariant applied to the conflict the demo
operations create. -/
theorem conflict_always_two_distinct_members_witness :
    2 ≤ demoConflict.memberClaimIds.length ∧
    demoConflict.memberClaimIds.Nodup ∧
    (∀ mid ∈ demoConflict.memberClaimIds,
      ∃ c ∈ (runOps simDemo demoOps).claims,
        c.id = mid ∧ c.topicKey = demoConflict.topicKey) ∧
    2 ≤ (conflictPositions (runOps simDemo demoOps) demoConflict).length :=
  conflict_always_two_distinct_members simDemo demoOps demoConflict
    (by decide)

end Quarry
